import Mathlib

/-!
Shallow embedding of the tensor-dialect op-semantics layer implemented in
mlir/lib/Dialect/Tensor/IR/TensorOps.cpp: ranked tensor types with static or
dynamic extents, the shape join, the static-information cast predicate, the
chained-cast canonicalization decision, element-extraction folding over
from_elements, result-shape reification for empty/generate, gather result-type
inference and verification, canonical rank-reduced slice types, insert-slice
folding, and the orthogonal-pad fusion pattern.

Dimensions are modelled as `Int` with the `ShapedType::kDynamic` sentinel,
exactly as the source manipulates `int64_t` shape arrays. Element types are
opaque tokens (`Nat`). SSA values are opaque identifiers (`Nat`); a fold that
walks a def-chain takes the producing operation as an explicit optional
argument, standing for `getDefiningOp` having succeeded or failed.
-/

/-- Sentinel marking a dynamic extent, `ShapedType::kDynamic`
(the minimal signed 64-bit value in this revision). -/
def kDynamic : Int := -(2 ^ 63)

/-- `ShapedType::isDynamic`. -/
def isDynamic (d : Int) : Bool := decide (d = kDynamic)

/-- A ranked tensor type: an element-type token and a shape whose entries are
static sizes or the `kDynamic` sentinel. -/
structure RankedTensorType where
  elem : Nat
  shape : List Int
deriving DecidableEq

/-- A tensor type as used by `joinShapes` and `preservesStaticInformation`:
ranked or unranked (an unranked type carries only the element type). -/
inductive TensorTy where
  | unranked (elem : Nat)
  | ranked (t : RankedTensorType)
deriving DecidableEq

/-- `ShapedType::hasStaticShape`: no dimension is dynamic. -/
def hasStaticShape (t : RankedTensorType) : Bool :=
  t.shape.all (fun d => !isDynamic d)

/-- `mlir::tensor::preservesStaticInformation`: both types ranked, same
element type, same rank, and no dimension goes static in the source to
dynamic in the target. -/
def preservesStaticInformation : TensorTy → TensorTy → Bool
  | TensorTy.ranked s, TensorTy.ranked t =>
      decide (s.elem = t.elem) &&
      decide (s.shape.length = t.shape.length) &&
      (s.shape.zip t.shape).all (fun p => !(!isDynamic p.1 && isDynamic p.2))
  | _, _ => false

/-- One dimension of the `joinShapes` loop: a dynamic side takes the other
side's size, two equal statics agree, two different statics make the join
fail. -/
def joinDim (a b : Int) : Option Int :=
  if isDynamic a then some b
  else if isDynamic b then some a
  else if a = b then some a
  else none

/-- The per-dimension loop of `joinShapes` over two same-length shapes. -/
def joinDims : List Int → List Int → Option (List Int)
  | [], [] => some []
  | a :: as, b :: bs =>
      match joinDim a b, joinDims as bs with
      | some v, some rest => some (v :: rest)
      | _, _ => none
  | _, _ => none

/-- `joinShapes`: the most-static merge of two tensor types with matching
element types; an unranked side yields the other side, a rank mismatch or a
static disagreement yields no result. The element types are required to agree
by an assertion in the source; the result takes the first argument's. -/
def joinShapes : TensorTy → TensorTy → Option TensorTy
  | TensorTy.unranked _, two => some two
  | one, TensorTy.unranked _ => some one
  | TensorTy.ranked s, TensorTy.ranked t =>
      if s.shape.length ≠ t.shape.length then none
      else (joinDims s.shape t.shape).map
        (fun sh => TensorTy.ranked { elem := s.elem, shape := sh })

/-- The decision taken by `ChainedTensorCast::matchAndRewrite` for a cast
chain source → intermediate → result: collapse to one cast exactly when the
three-way join exists and equals the two-way join of the endpoints. -/
def chainedCastCollapses (source intermediate result : TensorTy) : Bool :=
  match (joinShapes source intermediate).bind (fun si => joinShapes si result) with
  | none => false
  | some firstJoin => decide (joinShapes source result = some firstJoin)

/-- State of the loop in `ExtractOp::fold` for the from_elements case after
`k` iterations, as a pair (flatIndex, stride). Iteration number `k + 1`
processes position `i = rank - 1 - k`; for `i < rank - 1` the stride is first
multiplied by the size of dimension `i`, then `indices[i] * stride` is
accumulated. -/
def extractFoldIter (dims indices : List Int) (rank : Nat) : Nat → Int × Int
  | 0 => (0, 1)
  | k + 1 =>
      let s := extractFoldIter dims indices rank k
      let i := rank - 1 - k
      let stride := if i < rank - 1 then s.2 * dims.getD i 0 else s.2
      (s.1 + indices.getD i 0 * stride, stride)

/-- The `extract(from_elements(...))` branch of `ExtractOp::fold`: flatten the
constant indices with the loop above and return the element at that flattened
position, or no fold when the flattened index is out of bounds. -/
def extractFromElementsFold (ty : RankedTensorType) (elements : List Int)
    (indices : List Int) : Option Int :=
  let rank := ty.shape.length
  let flatIndex := (extractFoldIter ty.shape indices rank rank).1
  if (elements.length : Int) ≤ flatIndex ∨ flatIndex < 0 then none
  else some (elements.getD flatIndex.toNat 0)

/-- The row-major flattened index as the specification states it: the stride
of a dimension is the product of the sizes of the trailing dimensions. -/
def rowMajorFlatIndex : List Int → List Int → Int
  | _ :: ds, i :: is => i * ds.prod + rowMajorFlatIndex ds is
  | _, _ => 0

/-- A per-dimension value materialized by shape reification: either an
existing SSA operand or a fresh constant-index computation. -/
inductive ReifiedVal where
  | operand (v : Nat)
  | const (n : Int)
deriving DecidableEq

/-- Loop body of `EmptyOp::reifyResultShapes` over the remaining shape, the
running dynamic-operand counter `ctr` and the running dimension position `i`:
a dynamic dimension takes the next dynamic-size operand, a static dimension
materializes `arith.constant` of the loop position `i`. -/
def reifyEmptyGo (dynamicSizes : List Nat) : List Int → Nat → Int → List ReifiedVal
  | [], _, _ => []
  | d :: rest, ctr, i =>
      if isDynamic d then
        ReifiedVal.operand (dynamicSizes.getD ctr 0) :: reifyEmptyGo dynamicSizes rest (ctr + 1) (i + 1)
      else
        ReifiedVal.const i :: reifyEmptyGo dynamicSizes rest ctr (i + 1)

/-- `EmptyOp::reifyResultShapes` for the op's single result. -/
def emptyReifyResultShapes (ty : RankedTensorType) (dynamicSizes : List Nat) :
    List ReifiedVal :=
  reifyEmptyGo dynamicSizes ty.shape 0 0

/-- Loop body of `GenerateOp::reifyResultShapes`: a dynamic dimension takes the
next operand, a static dimension materializes a constant of the dimension's
static size. -/
def reifyGenerateGo (operands : List Nat) : List Int → Nat → List ReifiedVal
  | [], _ => []
  | d :: rest, idx =>
      if isDynamic d then
        ReifiedVal.operand (operands.getD idx 0) :: reifyGenerateGo operands rest (idx + 1)
      else
        ReifiedVal.const d :: reifyGenerateGo operands rest idx

/-- `GenerateOp::reifyResultShapes` for the op's single result; the op's
operands are exactly its dynamic extents. -/
def generateReifyResultShapes (ty : RankedTensorType) (operands : List Nat) :
    List ReifiedVal :=
  reifyGenerateGo operands ty.shape 0

/-- `GatherOp::inferResultType`: leading dimensions of the indices tensor
(minus its last), then the source dimensions, every gathered dimension kept as
size 1 or dropped depending on `rankReduced`. The source performs the
membership test with `std::binary_search`, which requires the dims to be
sorted; the verifier establishes that they are strictly increasing before
calling this. -/
def gatherInferResultType (sourceType indicesType : RankedTensorType)
    (gatherDims : List Int) (rankReduced : Bool) : RankedTensorType :=
  let lead := indicesType.shape.dropLast
  let trail := (List.range sourceType.shape.length).filterMap (fun idx =>
    if gatherDims.contains (Int.ofNat idx) then
      if rankReduced then none else some 1
    else some (sourceType.shape.getD idx 0))
  { elem := sourceType.elem, shape := lead ++ trail }

/-- `verifyGatherOrScatterDims`: the dims list is non-empty, no longer than the
rank, every entry in `[0, rank)`, and strictly increasing. -/
def verifyGatherOrScatterDims (dims : List Int) (rank : Int) : Bool :=
  !dims.isEmpty &&
  decide ((dims.length : Int) ≤ rank) &&
  dims.all (fun v => decide (0 ≤ v) && decide (v < rank)) &&
  (dims.zip dims.tail).all (fun p => decide (p.1 < p.2))

/-- `GatherOp::verify`: the gather dims must pass `verifyGatherOrScatterDims`
against the source rank and the declared result type must equal the inferred
type or its rank-reduced variant. -/
def gatherVerify (sourceType indicesType resultType : RankedTensorType)
    (gatherDims : List Int) : Bool :=
  verifyGatherOrScatterDims gatherDims (sourceType.shape.length : Int) &&
  (decide (resultType = gatherInferResultType sourceType indicesType gatherDims false) ||
   decide (resultType = gatherInferResultType sourceType indicesType gatherDims true))

/-- `ExtractSliceOp::inferResultType` (static form): the non-rank-reduced
result type has the static sizes as its shape and the source's element type;
the offsets and strides do not influence it. -/
def extractSliceInferResultType (sourceType : RankedTensorType)
    (staticOffsets staticSizes staticStrides : List Int) : RankedTensorType :=
  { elem := sourceType.elem, shape := staticSizes }

/-- Modelled from the spec: `getPositionsOfShapeOne` (defined in
mlir/lib/Dialect/Utils/StaticValueUtils.cpp, which is not part of this file)
marks, while the budget `rank` lasts, the leading-most unit-sized entries of
the shape — the dimensions to drop are the first occurrences of size 1. -/
def getPositionsOfShapeOne : Nat → List Int → List Bool
  | _, [] => []
  | 0, _ :: rest => false :: getPositionsOfShapeOne 0 rest
  | r + 1, d :: rest =>
      if d = 1 then true :: getPositionsOfShapeOne r rest
      else false :: getPositionsOfShapeOne (r + 1) rest

/-- The projection loop of `inferCanonicalRankReducedResultType`: keep the
shape entries whose position is not marked for dropping. -/
def projectShape (shape : List Int) (dimsToProject : List Bool) : List Int :=
  (shape.zip dimsToProject).filterMap (fun p => if p.2 then none else some p.1)

/-- `ExtractSliceOp::inferCanonicalRankReducedResultType`: infer the
non-rank-reduced type, and when its rank exceeds the desired rank, drop that
many unit dimensions, first occurrences first. -/
def inferCanonicalRankReducedResultType (desiredResultRank : Nat)
    (sourceType : RankedTensorType)
    (offsets sizes strides : List Int) : RankedTensorType :=
  let inferredType := extractSliceInferResultType sourceType offsets sizes strides
  let rankDiff : Int := (inferredType.shape.length : Int) - (desiredResultRank : Int)
  if rankDiff > 0 then
    let shape := inferredType.shape
    let dimsToProject := getPositionsOfShapeOne rankDiff.toNat shape
    { elem := inferredType.elem, shape := projectShape shape dimsToProject }
  else inferredType

/-- Specification-side description of the rank reduction: remove the first
`k` unit-sized entries of the shape, leading-most first. -/
def dropLeadingUnitDims : Nat → List Int → List Int
  | 0, l => l
  | _ + 1, [] => []
  | k + 1, d :: rest =>
      if d = 1 then dropLeadingUnitDims k rest
      else d :: dropLeadingUnitDims (k + 1) rest

/-- One entry of a mixed offset/size/stride list (`OpFoldResult`): a
compile-time integer attribute or a runtime SSA value. -/
inductive OFR where
  | attr (v : Int)
  | val (id : Nat)
deriving DecidableEq

/-- `getConstantIntValue` on a mixed entry: the compile-time integer when the
entry is an attribute; a runtime value is treated as non-constant here. -/
def getConstantIntValue : OFR → Option Int
  | OFR.attr v => some v
  | OFR.val _ => none

/-- The static component of a mixed entry, with the dynamic sentinel standing
for a runtime value (`dispatchIndexOpFoldResults`). -/
def staticOfOFR : OFR → Int
  | OFR.attr v => v
  | OFR.val _ => kDynamic

/-- An `ExtractSliceOp`: its source value, source and result types, and mixed
offsets, sizes and strides. -/
structure ExtractSliceData where
  source : Nat
  sourceType : RankedTensorType
  resultType : RankedTensorType
  offsets : List OFR
  sizes : List OFR
  strides : List OFR
deriving DecidableEq

/-- An `InsertSliceOp`: its source and destination values and types, its
result type, and mixed offsets, sizes and strides. -/
structure InsertSliceData where
  source : Nat
  sourceType : RankedTensorType
  dest : Nat
  resultType : RankedTensorType
  offsets : List OFR
  sizes : List OFR
  strides : List OFR
deriving DecidableEq

/-- Modelled from the spec:
`OffsetSizeAndStrideOpInterface::isSameAs` (defined in
mlir/lib/Interfaces/ViewLikeInterface.cpp, which is not part of this file)
with an equality comparator — the two ops have identical mixed offsets, sizes
and strides. -/
def sameOffsetsSizesAndStrides (off1 sz1 st1 off2 sz2 st2 : List OFR) : Bool :=
  decide (off1 = off2) && decide (sz1 = sz2) && decide (st1 = st2)

/-- `foldIdentityOffsetSizeAndStrideOpInterface`: all offsets are constant 0,
the sizes match the given shape pairwise as constants, and all strides are
constant 1. -/
def foldIdentityOffsetSizeAndStride (offsets sizes strides : List OFR)
    (shape : List Int) : Bool :=
  offsets.all (fun ofr => decide (getConstantIntValue ofr = some 0)) &&
  (sizes.zip shape).all (fun p => decide (getConstantIntValue p.1 = some p.2)) &&
  strides.all (fun ofr => decide (getConstantIntValue ofr = some 1))

/-- `foldInsertAfterInsertSlice`: when the destination is produced by another
insert_slice with the same source type and identical mixed offsets, sizes and
strides, update the destination operand in place to the earlier insert's
destination. The producing op of the destination (or its absence) is passed
explicitly; on success the mutated op is returned. -/
def foldInsertAfterInsertSlice (op : InsertSliceData)
    (destDef : Option InsertSliceData) : Option InsertSliceData :=
  match destDef with
  | none => none
  | some prevInsertOp =>
      if prevInsertOp.sourceType = op.sourceType ∧
         sameOffsetsSizesAndStrides prevInsertOp.offsets prevInsertOp.sizes
           prevInsertOp.strides op.offsets op.sizes op.strides = true then
        some { op with dest := prevInsertOp.dest }
      else none

/-- `foldInsertAfterExtractSlice`: when the source is produced by an
extract_slice of the very destination at identical mixed offsets, sizes and
strides, the fold result is the extract's source. -/
def foldInsertAfterExtractSlice (op : InsertSliceData)
    (sourceDef : Option ExtractSliceData) : Option Nat :=
  match sourceDef with
  | none => none
  | some extractOp =>
      if extractOp.source = op.dest ∧
         sameOffsetsSizesAndStrides extractOp.offsets extractOp.sizes
           extractOp.strides op.offsets op.sizes op.strides = true then
        some extractOp.source
      else none

/-- Outcome of `InsertSliceOp::fold`: replacement by an existing value, or an
in-place destination update with the op itself (its own result) retained. -/
inductive InsertFoldOutcome where
  | foldedTo (v : Nat)
  | inPlace (newOp : InsertSliceData)
deriving DecidableEq

/-- `InsertSliceOp::fold`: first the static identity fold to the op's own
source, then the insert-after-insert in-place fold, then the
insert-after-extract fold to the destination. -/
def insertSliceFold (op : InsertSliceData) (sourceDef : Option ExtractSliceData)
    (destDef : Option InsertSliceData) : Option InsertFoldOutcome :=
  if hasStaticShape op.sourceType ∧ hasStaticShape op.resultType ∧
     op.sourceType = op.resultType ∧
     foldIdentityOffsetSizeAndStride op.offsets op.sizes op.strides
       op.resultType.shape = true then
    some (InsertFoldOutcome.foldedTo op.source)
  else
    match foldInsertAfterInsertSlice op destDef with
    | some newOp => some (InsertFoldOutcome.inPlace newOp)
    | none =>
        match foldInsertAfterExtractSlice op sourceDef with
        | some v => some (InsertFoldOutcome.foldedTo v)
        | none => none

/-- A `PadOp`: source value and type, result type, mixed low and high padding
amounts, the nofold attribute, and the constant padding value yielded by its
region when one exists (`getConstantPaddingValue` followed by `m_Constant`). -/
structure PadData where
  source : Nat
  sourceType : RankedTensorType
  resultType : RankedTensorType
  low : List OFR
  high : List OFR
  nofold : Bool
  padValue : Option Int
deriving DecidableEq

/-- Modelled from the spec:
`OffsetSizeAndStrideOpInterface::hasUnitStride` (declared outside this file) —
the slice is unit-stride, every mixed stride being the constant 1. -/
def hasUnitStride (op : ExtractSliceData) : Bool :=
  op.strides.all (fun s => decide (getConstantIntValue s = some 1))

/-- Modelled from the spec: `PadOp::hasZeroLowPad` (declared in the op
definition file outside this file) — the pad has zero low-padding, every mixed
low-padding amount being the constant 0. -/
def hasZeroLowPad (p : PadData) : Bool :=
  p.low.all (fun l => decide (getConstantIntValue l = some 0))

/-- `PadOp::getPaddedDims`: a dimension is padded when its low or high mixed
padding amount is not the constant 0 (a non-constant amount counts as
padded). -/
def getPaddedDims (p : PadData) : List Bool :=
  (List.range p.sourceType.shape.length).map (fun i =>
    decide (getConstantIntValue (p.low.getD i (OFR.attr 0)) ≠ some 0) ||
    decide (getConstantIntValue (p.high.getD i (OFR.attr 0)) ≠ some 0))

/-- `llvm::SmallBitVector::anyCommon`: some position is set in both masks. -/
def anyCommon (a b : List Bool) : Bool :=
  (a.zip b).any (fun p => p.1 && p.2)

/-- The extract-slice plus pad pair built by `FoldOrthogonalPaddings` on a
successful match, keeping the combined offsets, sizes, strides and paddings. -/
structure FusedPads where
  newSliceSource : Nat
  newOffsets : List OFR
  newSizes : List OFR
  newStrides : List OFR
  newLow : List OFR
  newHigh : List OFR
  newPadResultType : RankedTensorType
  newNofold : Bool
deriving DecidableEq

/-- Step 6 of `FoldOrthogonalPaddings::matchAndRewrite`: per dimension, take
the offset of the pair whose other side has zero offset and no padding; fail
when no such side exists. -/
def combineOffsets (rank : Nat) (innerDims outerDims : List Bool)
    (innerOffsets outerOffsets : List OFR) : Option (List OFR) :=
  (List.range rank).mapM (fun i =>
    let innerOffset := innerOffsets.getD i (OFR.attr 0)
    let outerOffset := outerOffsets.getD i (OFR.attr 0)
    if !innerDims.getD i false ∧ getConstantIntValue innerOffset = some 0 then
      some outerOffset
    else if !outerDims.getD i false ∧ getConstantIntValue outerOffset = some 0 then
      some innerOffset
    else none)

/-- Step 7 of `FoldOrthogonalPaddings::matchAndRewrite`: take the outer
slice's size on the dimensions padded by the outer pad, requiring the inner
slice's size there to equal the inner slice's full source extent; elsewhere
keep the inner slice's size. -/
def combineSizes (rank : Nat) (outerDims : List Bool)
    (innerSizes outerSizes : List OFR) (innerSourceShape : List Int) :
    Option (List OFR) :=
  (List.range rank).mapM (fun i =>
    if !outerDims.getD i false then some (innerSizes.getD i (OFR.attr 0))
    else
      let sliceSize := innerSizes.getD i (OFR.attr 0)
      let sourceSize := innerSourceShape.getD i 0
      if getConstantIntValue sliceSize = some sourceSize then
        some (outerSizes.getD i (OFR.attr 0))
      else none)

/-- The high paddings combined by `FoldOrthogonalPaddings`: each pad
contributes its high amount on the dimensions it pads. -/
def combineHighPads (rank : Nat) (innerDims outerDims : List Bool)
    (innerHigh outerHigh : List OFR) : List OFR :=
  (List.range rank).map (fun i =>
    if outerDims.getD i false then outerHigh.getD i (OFR.attr 0)
    else if innerDims.getD i false then innerHigh.getD i (OFR.attr 0)
    else OFR.attr 0)

/-- `FoldOrthogonalPaddings::matchAndRewrite` after the def-chain lookups:
`padOp` consumes `innerSliceOp`, which consumes `outerPadOp`, which consumes
`outerSliceOp`. Returns the fused pair, or `none` when any precondition fails
(no partial rewrite is represented). -/
def foldOrthogonalPaddings (padOp : PadData) (innerSliceOp : ExtractSliceData)
    (outerPadOp : PadData) (outerSliceOp : ExtractSliceData) :
    Option FusedPads :=
  if outerPadOp.nofold then none
  else if outerSliceOp.sourceType.shape.length ≠ padOp.sourceType.shape.length then
    none
  else if !(hasUnitStride innerSliceOp && hasUnitStride outerSliceOp) then none
  else if !(hasZeroLowPad padOp && hasZeroLowPad outerPadOp) then none
  else if padOp.padValue.isNone || outerPadOp.padValue.isNone ||
      decide (padOp.padValue ≠ outerPadOp.padValue) then none
  else if anyCommon (getPaddedDims padOp) (getPaddedDims outerPadOp) then none
  else
    (combineOffsets padOp.sourceType.shape.length (getPaddedDims padOp)
        (getPaddedDims outerPadOp) innerSliceOp.offsets
        outerSliceOp.offsets).bind (fun newOffsets =>
      (combineSizes padOp.sourceType.shape.length (getPaddedDims outerPadOp)
          innerSliceOp.sizes outerSliceOp.sizes
          innerSliceOp.sourceType.shape).map (fun newSizes =>
        { newSliceSource := outerSliceOp.source
          newOffsets := newOffsets
          newSizes := newSizes
          newStrides := innerSliceOp.strides
          newLow := padOp.low
          newHigh := combineHighPads padOp.sourceType.shape.length
            (getPaddedDims padOp) (getPaddedDims outerPadOp)
            padOp.high outerPadOp.high
          newPadResultType := padOp.resultType
          newNofold := padOp.nofold }))

/-- Concrete instances used by the claims about insert-slice folding: an
insert of the full-identity slice of value 0 back into value 0. -/
def identInsert : InsertSliceData :=
  { source := 1, sourceType := ⟨0, [8, 8]⟩, dest := 0, resultType := ⟨0, [8, 8]⟩
    offsets := [OFR.attr 0, OFR.attr 0], sizes := [OFR.attr 8, OFR.attr 8]
    strides := [OFR.attr 1, OFR.attr 1] }

/-- The extract_slice producing `identInsert`'s source: the full-identity
slice of value 0. -/
def identExtract : ExtractSliceData :=
  { source := 0, sourceType := ⟨0, [8, 8]⟩, resultType := ⟨0, [8, 8]⟩
    offsets := [OFR.attr 0, OFR.attr 0], sizes := [OFR.attr 8, OFR.attr 8]
    strides := [OFR.attr 1, OFR.attr 1] }

/-- A proper (non-identity) sub-slice insert: rows 0..3 of an 8x8 tensor. -/
def subInsert : InsertSliceData :=
  { source := 1, sourceType := ⟨0, [4, 8]⟩, dest := 0, resultType := ⟨0, [8, 8]⟩
    offsets := [OFR.attr 0, OFR.attr 0], sizes := [OFR.attr 4, OFR.attr 8]
    strides := [OFR.attr 1, OFR.attr 1] }

/-- The extract_slice producing `subInsert`'s source. -/
def subExtract : ExtractSliceData :=
  { source := 0, sourceType := ⟨0, [8, 8]⟩, resultType := ⟨0, [4, 8]⟩
    offsets := [OFR.attr 0, OFR.attr 0], sizes := [OFR.attr 4, OFR.attr 8]
    strides := [OFR.attr 1, OFR.attr 1] }

/-- An insert_slice producing `subInsert`'s destination at the same
coordinates and with the same source type, for the insert-after-insert fold. -/
def prevSubInsert : InsertSliceData :=
  { source := 5, sourceType := ⟨0, [4, 8]⟩, dest := 9, resultType := ⟨0, [8, 8]⟩
    offsets := [OFR.attr 0, OFR.attr 0], sizes := [OFR.attr 4, OFR.attr 8]
    strides := [OFR.attr 1, OFR.attr 1] }

/-- C1. The claim states the fold of `tensor.extract` over
`tensor.from_elements` computes the row-major flattened index and in
particular folds index [1,2] of shape [2,3] over elements [a,b,c,d,e,f] to f
(flattened index 5). The code's stride recurrence multiplies by the size of
dimension i instead of dimension i+1, so at the failing input it computes
flattened index 1*2+2 = 4 and folds to e (here the fifth element 14, not the
claimed sixth element 15), while the spec's row-major formula gives 5. -/
theorem extract_from_elements_fold_uses_wrong_stride :
    extractFromElementsFold { elem := 0, shape := [2, 3] }
      [10, 11, 12, 13, 14, 15] [1, 2] = some 14 ∧
    rowMajorFlatIndex [2, 3] [1, 2] = 5 ∧
    List.getD [10, 11, 12, 13, 14, 15] 5 (0 : Int) = 15 ∧
    extractFromElementsFold { elem := 0, shape := [2, 3] }
      [10, 11, 12, 13, 14, 15] [1, 2] ≠ some 15 := by
  refine ⟨by decide, by decide, by decide, by decide⟩

/-- C2. The claim states that reification returns, for every static
dimension, a literal equal to that dimension's extent. `GenerateOp` does so
(for shape [5,7] with no dynamic sizes it returns constants 5 and 7, and with
a dynamic dimension it reuses the matching operand), but `EmptyOp` creates a
constant of the loop position `i` instead of the extent: for
`tensor.empty : tensor<5x7>` it returns constants 0 and 1. -/
theorem empty_reify_returns_dim_index_not_size :
    emptyReifyResultShapes { elem := 0, shape := [5, 7] } [] =
      [ReifiedVal.const 0, ReifiedVal.const 1] ∧
    emptyReifyResultShapes { elem := 0, shape := [5, 7] } [] ≠
      [ReifiedVal.const 5, ReifiedVal.const 7] ∧
    generateReifyResultShapes { elem := 0, shape := [5, 7] } [] =
      [ReifiedVal.const 5, ReifiedVal.const 7] ∧
    emptyReifyResultShapes { elem := 0, shape := [kDynamic, 7] } [42] =
      [ReifiedVal.operand 42, ReifiedVal.const 1] ∧
    generateReifyResultShapes { elem := 0, shape := [kDynamic, 7] } [42] =
      [ReifiedVal.operand 42, ReifiedVal.const 7] := by
  refine ⟨by decide, by decide, by decide, by decide, by decide⟩

/-- C3, counterexample. The claim states that both directions of
`preservesStaticInformation` hold iff the shapes are identical, and that when
S has a static dimension where T is dynamic only the S-to-T direction holds.
Both parts fail on the code: the predicate never compares two static sizes,
so S = 8 and T = 16 satisfy both directions with different shapes; and for
S = 8, T = dynamic the S-to-T direction is exactly the one that is false
(static-to-dynamic is the forbidden regression), while T-to-S holds. -/
theorem preservesStaticInformation_claim_counterexample :
    preservesStaticInformation (TensorTy.ranked ⟨0, [8]⟩)
      (TensorTy.ranked ⟨0, [16]⟩) = true ∧
    preservesStaticInformation (TensorTy.ranked ⟨0, [16]⟩)
      (TensorTy.ranked ⟨0, [8]⟩) = true ∧
    ([8] : List Int) ≠ [16] ∧
    preservesStaticInformation (TensorTy.ranked ⟨0, [8]⟩)
      (TensorTy.ranked ⟨0, [kDynamic]⟩) = false ∧
    preservesStaticInformation (TensorTy.ranked ⟨0, [kDynamic]⟩)
      (TensorTy.ranked ⟨0, [8]⟩) = true := by
  refine ⟨by decide, by decide, by decide, by decide, by decide⟩

/-- C4. The chained-cast canonicalization collapses source → intermediate →
target into a single cast exactly when the three-way join of the shapes
exists and equals the two-way join of source and target; the two concrete
instances show a collapse (?x? → 8x? → 8x16) and a refusal (the intermediate
asserts a static 4 that the endpoints cannot re-derive). -/
theorem chained_cast_collapses_iff_three_way_join_matches :
    (∀ source intermediate result : TensorTy,
      chainedCastCollapses source intermediate result = true ↔
        ∃ j, (joinShapes source intermediate).bind (fun si => joinShapes si result) =
               some j ∧
             joinShapes source result = some j) ∧
    chainedCastCollapses (TensorTy.ranked ⟨0, [kDynamic, kDynamic]⟩)
      (TensorTy.ranked ⟨0, [8, kDynamic]⟩) (TensorTy.ranked ⟨0, [8, 16]⟩) = true ∧
    chainedCastCollapses (TensorTy.ranked ⟨0, [kDynamic, kDynamic]⟩)
      (TensorTy.ranked ⟨0, [kDynamic, 4]⟩)
      (TensorTy.ranked ⟨0, [8, kDynamic]⟩) = false := by
  refine ⟨?_, by decide, by decide⟩
  intro source intermediate result
  unfold chainedCastCollapses
  cases h : (joinShapes source intermediate).bind (fun si => joinShapes si result) with
  | none => simp
  | some j => simp

/-- C9. The gather verifier succeeds exactly when the gather-dims list passes
the dims check against the source rank and the declared result type equals the
inferred non-rank-reduced form or its rank-reduced variant; for source rank 3,
indices shape [N,2] and gather-dims [0,2] the two forms are [N,1,dim1,1] and
[N,dim1]. -/
theorem gather_verify_accepts_exactly_the_two_inferred_forms :
    (∀ (sourceType indicesType resultType : RankedTensorType)
        (gatherDims : List Int),
      gatherVerify sourceType indicesType resultType gatherDims = true ↔
        (verifyGatherOrScatterDims gatherDims (sourceType.shape.length : Int) = true ∧
         (resultType = gatherInferResultType sourceType indicesType gatherDims false ∨
          resultType = gatherInferResultType sourceType indicesType gatherDims true))) ∧
    (∀ (n d0 d1 d2 : Int) (e e2 : Nat),
      gatherInferResultType ⟨e, [d0, d1, d2]⟩ ⟨e2, [n, 2]⟩ [0, 2] false =
        ⟨e, [n, 1, d1, 1]⟩ ∧
      gatherInferResultType ⟨e, [d0, d1, d2]⟩ ⟨e2, [n, 2]⟩ [0, 2] true =
        ⟨e, [n, d1]⟩ ∧
      verifyGatherOrScatterDims [0, 2] 3 = true) := by
  constructor
  · intro sourceType indicesType resultType gatherDims
    unfold gatherVerify
    simp [Bool.and_eq_true, Bool.or_eq_true, decide_eq_true_iff]
  · intro n d0 d1 d2 e e2
    refine ⟨rfl, rfl, by decide⟩

/-- Projecting out the positions marked by `getPositionsOfShapeOne` removes
exactly the first `k` unit-sized entries of the shape. -/
theorem projectShape_getPositionsOfShapeOne (l : List Int) :
    ∀ k, projectShape l (getPositionsOfShapeOne k l) = dropLeadingUnitDims k l := by
  induction l with
  | nil =>
      intro k
      cases k <;> rfl
  | cons d rest ih =>
      intro k
      cases k with
      | zero =>
          have h0 := ih 0
          simp [projectShape] at h0
          simp [getPositionsOfShapeOne, projectShape, List.filterMap_cons,
            dropLeadingUnitDims, h0]
      | succ r =>
          by_cases hd : d = 1
          · simp [getPositionsOfShapeOne, projectShape, List.filterMap_cons, hd,
              dropLeadingUnitDims] at ih ⊢
            exact ih r
          · simp [getPositionsOfShapeOne, projectShape, List.filterMap_cons, hd,
              dropLeadingUnitDims] at ih ⊢
            exact ih (r + 1)

/-- C6. The canonical rank-reduced extract-slice result type drops exactly the
rank difference many unit-sized dimensions, leading-most first; in particular
static sizes [1,6,1] reduced to rank 2 give [6,1] and never [1,6]. -/
theorem infer_canonical_rank_reduced_drops_leading_unit_dims :
    (∀ (desiredResultRank : Nat) (sourceType : RankedTensorType)
        (offsets sizes strides : List Int),
      (inferCanonicalRankReducedResultType desiredResultRank sourceType
          offsets sizes strides).shape =
        dropLeadingUnitDims (sizes.length - desiredResultRank) sizes) ∧
    (inferCanonicalRankReducedResultType 2 ⟨0, [9, 9, 9]⟩
        [0, 0, 0] [1, 6, 1] [1, 1, 1]).shape = [6, 1] ∧
    (inferCanonicalRankReducedResultType 2 ⟨0, [9, 9, 9]⟩
        [0, 0, 0] [1, 6, 1] [1, 1, 1]).shape ≠ [1, 6] := by
  refine ⟨?_, by decide, by decide⟩
  intro dr st off sz strd
  unfold inferCanonicalRankReducedResultType extractSliceInferResultType
  by_cases h : ((sz.length : Int) - (dr : Int)) > 0
  · rw [if_pos h]
    have ht : ((sz.length : Int) - (dr : Int)).toNat = sz.length - dr := by omega
    simp only [ht]
    exact projectShape_getPositionsOfShapeOne sz (sz.length - dr)
  · rw [if_neg h]
    have ht : sz.length - dr = 0 := by omega
    rw [ht]
    simp [dropLeadingUnitDims]

/-- The per-dimension join is symmetric. -/
theorem joinDim_comm (a b : Int) : joinDim a b = joinDim b a := by
  unfold joinDim
  by_cases h1 : isDynamic a
  · by_cases h2 : isDynamic b
    · simp [isDynamic] at h1 h2
      rw [h1, h2]
    · simp [h1, h2]
  · by_cases h2 : isDynamic b
    · simp [h1, h2]
    · by_cases hab : a = b
      · simp [h1, h2, hab]
      · rw [if_neg h1, if_neg h2, if_neg hab, if_neg h2, if_neg h1,
          if_neg (fun h => hab h.symm)]

/-- The dimension-wise join loop is commutative. -/
theorem joinDims_comm (a : List Int) : ∀ b, joinDims a b = joinDims b a := by
  induction a with
  | nil =>
      intro b
      cases b <;> rfl
  | cons x xs ih =>
      intro b
      cases b with
      | nil => rfl
      | cons y ys =>
          simp only [joinDims]
          rw [joinDim_comm, ih ys]

/-- A successful per-dimension join takes the static side's value and is
dynamic only when both sides are dynamic. -/
theorem joinDim_spec (a b v : Int) (h : joinDim a b = some v) :
    (isDynamic a = false → v = a) ∧ (isDynamic b = false → v = b) ∧
    (isDynamic a = true → isDynamic b = true → isDynamic v = true) := by
  unfold joinDim at h
  by_cases h1 : isDynamic a
  · rw [if_pos h1] at h
    injection h with hv
    refine ⟨fun hc => absurd h1 (by simp [hc]), fun _ => hv.symm,
      fun _ hb => ?_⟩
    rw [← hv]
    exact hb
  · rw [if_neg h1] at h
    by_cases h2 : isDynamic b
    · rw [if_pos h2] at h
      injection h with hv
      exact ⟨fun _ => hv.symm, fun hc => absurd h2 (by simp [hc]),
        fun ha _ => absurd ha (by simp [h1])⟩
    · rw [if_neg h2] at h
      by_cases hab : a = b
      · rw [if_pos hab] at h
        injection h with hv
        exact ⟨fun _ => hv.symm, fun _ => hab ▸ hv.symm,
          fun ha _ => absurd ha (by simp [h1])⟩
      · rw [if_neg hab] at h
        exact absurd h (by simp)

/-- A successful dimension-wise join has the length of its inputs and obeys
the per-dimension specification. -/
theorem joinDims_some (a : List Int) : ∀ b sh, joinDims a b = some sh →
    sh.length = a.length ∧
    ∀ p ∈ (a.zip b).zip sh,
      (isDynamic p.1.1 = false → p.2 = p.1.1) ∧
      (isDynamic p.1.2 = false → p.2 = p.1.2) ∧
      (isDynamic p.1.1 = true → isDynamic p.1.2 = true → isDynamic p.2 = true) := by
  induction a with
  | nil =>
      intro b sh h
      cases b with
      | nil =>
          simp only [joinDims, Option.some.injEq] at h
          subst h
          simp
      | cons y ys => simp [joinDims] at h
  | cons x xs ih =>
      intro b sh h
      cases b with
      | nil => simp [joinDims] at h
      | cons y ys =>
          simp only [joinDims] at h
          cases hd : joinDim x y with
          | none => rw [hd] at h; simp at h
          | some v =>
              rw [hd] at h
              cases hrest : joinDims xs ys with
              | none => rw [hrest] at h; simp at h
              | some rest =>
                  rw [hrest] at h
                  simp at h
                  obtain ⟨hlen, htail⟩ := ih ys rest hrest
                  constructor
                  · rw [← h]
                    simp [hlen]
                  · intro p hp
                    rw [← h] at hp
                    simp only [List.zip_cons_cons, List.mem_cons] at hp
                    rcases hp with hp | hp
                    · rw [hp]
                      exact joinDim_spec x y v hd
                    · exact htail p hp

/-- A dimension with two different static values makes the dimension-wise
join fail. -/
theorem joinDims_conflict (a : List Int) : ∀ (b : List Int) (p : Int × Int),
    p ∈ a.zip b → isDynamic p.1 = false → isDynamic p.2 = false → p.1 ≠ p.2 →
    joinDims a b = none := by
  induction a with
  | nil =>
      intro b p hp
      simp at hp
  | cons x xs ih =>
      intro b p hp h1 h2 hne
      cases b with
      | nil => rfl
      | cons y ys =>
          simp only [List.zip_cons_cons, List.mem_cons] at hp
          rcases hp with hp | hp
          · have hd : joinDim x y = none := by
              rw [hp] at h1 h2 hne
              unfold joinDim
              rw [if_neg (by simp [h1]), if_neg (by simp [h2]), if_neg hne]
            simp only [joinDims, hd]
          · have hrest : joinDims xs ys = none := ih ys p hp h1 h2 hne
            simp only [joinDims, hrest]
            cases joinDim x y <;> rfl

/-- C5. The shape join of two same-rank ranked tensor types with matching
element type is commutative; when it exists, every result dimension takes the
static side's value (so it is static wherever either input is, with the
agreed value) and is dynamic only where both inputs are dynamic; and the join
does not exist when the ranks differ or some dimension carries two different
static values. -/
theorem joinShapes_commutative_and_most_static :
    (∀ A B : RankedTensorType, A.elem = B.elem →
      joinShapes (TensorTy.ranked A) (TensorTy.ranked B) =
        joinShapes (TensorTy.ranked B) (TensorTy.ranked A)) ∧
    (∀ (A B : RankedTensorType) (C : TensorTy),
      joinShapes (TensorTy.ranked A) (TensorTy.ranked B) = some C →
      ∃ sh, C = TensorTy.ranked ⟨A.elem, sh⟩ ∧ sh.length = A.shape.length ∧
        ∀ p ∈ (A.shape.zip B.shape).zip sh,
          (isDynamic p.1.1 = false → p.2 = p.1.1) ∧
          (isDynamic p.1.2 = false → p.2 = p.1.2) ∧
          (isDynamic p.1.1 = true → isDynamic p.1.2 = true →
            isDynamic p.2 = true)) ∧
    (∀ A B : RankedTensorType, A.shape.length ≠ B.shape.length →
      joinShapes (TensorTy.ranked A) (TensorTy.ranked B) = none) ∧
    (∀ (A B : RankedTensorType) (p : Int × Int), p ∈ A.shape.zip B.shape →
      isDynamic p.1 = false → isDynamic p.2 = false → p.1 ≠ p.2 →
      joinShapes (TensorTy.ranked A) (TensorTy.ranked B) = none) := by
  refine ⟨?_, ?_, ?_, ?_⟩
  · intro A B helem
    by_cases h : A.shape.length = B.shape.length
    · simp [joinShapes, h, helem, joinDims_comm A.shape B.shape]
    · simp [joinShapes, h, Ne.symm h]
  · intro A B C h
    by_cases hl : A.shape.length = B.shape.length
    · simp only [joinShapes, hl, ne_eq, not_true_eq_false, if_false] at h
      rcases Option.map_eq_some'.mp h with ⟨sh, hsh, hC⟩
      obtain ⟨hlen, hdims⟩ := joinDims_some A.shape B.shape sh hsh
      exact ⟨sh, hC.symm, hlen, hdims⟩
    · rw [joinShapes, if_pos hl] at h
      exact absurd h (by simp)
  · intro A B h
    rw [joinShapes, if_pos h]
  · intro A B p hp h1 h2 hne
    by_cases hl : A.shape.length = B.shape.length
    · rw [joinShapes, if_neg (by omega), joinDims_conflict A.shape B.shape p hp h1 h2 hne]
      rfl
    · rw [joinShapes, if_pos hl]

/-- Witness for `joinShapes_commutative_and_most_static`: at shapes [2,3] and
[2,4] the statically different last dimension makes the join fail. -/
theorem joinShapes_commutative_and_most_static_witness :
    joinShapes (TensorTy.ranked ⟨7, [2, 3]⟩) (TensorTy.ranked ⟨7, [2, 4]⟩) = none :=
  joinShapes_commutative_and_most_static.2.2.2 ⟨7, [2, 3]⟩ ⟨7, [2, 4]⟩ (3, 4)
    (by decide) (by decide) (by decide) (by decide)

/-- Characterization of `preservesStaticInformation` on two ranked types. -/
theorem preservesStaticInformation_ranked_iff (S T : RankedTensorType) :
    preservesStaticInformation (TensorTy.ranked S) (TensorTy.ranked T) = true ↔
      S.elem = T.elem ∧ S.shape.length = T.shape.length ∧
      ∀ p ∈ S.shape.zip T.shape,
        isDynamic p.1 = false → isDynamic p.2 = false := by
  unfold preservesStaticInformation
  rw [Bool.and_eq_true, Bool.and_eq_true, decide_eq_true_iff, decide_eq_true_iff,
    List.all_eq_true]
  constructor
  · rintro ⟨⟨he, hl⟩, hall⟩
    refine ⟨he, hl, fun p hp hfst => ?_⟩
    have := hall p hp
    cases hsnd : isDynamic p.2
    · rfl
    · rw [hfst, hsnd] at this
      simp at this
  · rintro ⟨he, hl, himp⟩
    refine ⟨⟨he, hl⟩, fun p hp => ?_⟩
    cases hfst : isDynamic p.1
    · rw [himp p hp hfst]
      rfl
    · simp [hfst]

/-- A member of the zip of a list with itself has equal components. -/
theorem mem_zip_self (l : List Int) (p : Int × Int) (hp : p ∈ l.zip l) :
    p.1 = p.2 := by
  induction l with
  | nil => simp at hp
  | cons x xs ih =>
      simp only [List.zip_cons_cons, List.mem_cons] at hp
      rcases hp with h | h
      · rw [h]
      · exact ih h

/-- The middle pair of the zip of two lists that differ only there. -/
theorem mem_zip_middle (pre post : List Int) (a b : Int) :
    (a, b) ∈ (pre ++ a :: post).zip (pre ++ b :: post) := by
  induction pre with
  | nil => simp [List.zip_cons_cons]
  | cons x xs ih =>
      simp only [List.cons_append, List.zip_cons_cons, List.mem_cons]
      exact Or.inr ih

/-- Every member of the zip of two lists differing at one position is either
that differing pair or has equal components. -/
theorem zip_middle_forms (pre post : List Int) (a b : Int) (p : Int × Int)
    (hp : p ∈ (pre ++ a :: post).zip (pre ++ b :: post)) :
    p = (a, b) ∨ p.1 = p.2 := by
  induction pre with
  | nil =>
      simp only [List.nil_append, List.zip_cons_cons, List.mem_cons] at hp
      rcases hp with h | h
      · exact Or.inl h
      · exact Or.inr (mem_zip_self post p h)
  | cons x xs ih =>
      simp only [List.cons_append, List.zip_cons_cons, List.mem_cons] at hp
      rcases hp with h | h
      · rw [h]
        exact Or.inr rfl
      · exact ih h

/-- C3, amended. For ranked same-rank same-element-type S and T, both
directions of `preservesStaticInformation` hold iff S and T agree
dimension-wise on which extents are dynamic (static sizes need not agree);
and when S has a static extent where T is dynamic, all else equal, the
predicate holds in the T-to-S direction only (static-to-dynamic is the
forbidden regression). -/
theorem preservesStaticInformation_amended :
    (∀ S T : RankedTensorType, S.elem = T.elem →
      S.shape.length = T.shape.length →
      ((preservesStaticInformation (TensorTy.ranked S) (TensorTy.ranked T) = true ∧
        preservesStaticInformation (TensorTy.ranked T) (TensorTy.ranked S) = true) ↔
        ∀ p ∈ S.shape.zip T.shape, isDynamic p.1 = isDynamic p.2)) ∧
    (∀ (e : Nat) (pre post : List Int) (s : Int), s ≠ kDynamic →
      preservesStaticInformation (TensorTy.ranked ⟨e, pre ++ s :: post⟩)
        (TensorTy.ranked ⟨e, pre ++ kDynamic :: post⟩) = false ∧
      preservesStaticInformation (TensorTy.ranked ⟨e, pre ++ kDynamic :: post⟩)
        (TensorTy.ranked ⟨e, pre ++ s :: post⟩) = true) := by
  constructor
  · intro S T helem hrank
    rw [preservesStaticInformation_ranked_iff, preservesStaticInformation_ranked_iff]
    constructor
    · rintro ⟨⟨_, _, h1⟩, ⟨_, _, h2⟩⟩ p hp
      have hp' : p.swap ∈ T.shape.zip S.shape := by
        rw [← List.zip_swap S.shape T.shape]
        exact List.mem_map_of_mem _ hp
      have hq2 := h2 p.swap hp'
      simp only [Prod.fst_swap, Prod.snd_swap] at hq2
      cases hx : isDynamic p.1 <;> cases hy : isDynamic p.2
      · rfl
      · exact absurd (h1 p hp hx) (by simp [hy])
      · exact absurd (hq2 hy) (by simp [hx])
      · rfl
    · intro h
      refine ⟨⟨helem, hrank, fun p hp hfst => ?_⟩,
        ⟨helem.symm, hrank.symm, fun p hp hfst => ?_⟩⟩
      · rw [← h p hp]
        exact hfst
      · have hp' : p.swap ∈ S.shape.zip T.shape := by
          rw [← List.zip_swap T.shape S.shape]
          exact List.mem_map_of_mem _ hp
        have := h p.swap hp'
        simp only [Prod.fst_swap, Prod.snd_swap] at this
        rw [this]
        exact hfst
  · intro e pre post s hs
    constructor
    · apply Bool.eq_false_iff.mpr
      intro hcontra
      rcases (preservesStaticInformation_ranked_iff _ _).mp hcontra with ⟨_, _, himp⟩
      have hmem := mem_zip_middle pre post s kDynamic
      have := himp (s, kDynamic) hmem (by simp [isDynamic, hs])
      simp [isDynamic] at this
    · refine (preservesStaticInformation_ranked_iff _ _).mpr ⟨rfl, by simp, ?_⟩
      intro p hp h1
      rcases zip_middle_forms pre post kDynamic s p hp with h | h
      · rw [h] at h1
        simp [isDynamic] at h1
      · rw [← h]
        exact h1

/-- Witness for `preservesStaticInformation_amended`: S with the single
static extent 4 against T with a dynamic extent. -/
theorem preservesStaticInformation_amended_witness :
    preservesStaticInformation (TensorTy.ranked ⟨0, [4]⟩)
      (TensorTy.ranked ⟨0, [kDynamic]⟩) = false ∧
    preservesStaticInformation (TensorTy.ranked ⟨0, [kDynamic]⟩)
      (TensorTy.ranked ⟨0, [4]⟩) = true :=
  preservesStaticInformation_amended.2 0 [] [] 4 (by decide)

/-- C7, counterexample. For the full-identity slice (offsets 0, sizes equal
to the full static 8x8 shape, unit strides) all conditions of the claim hold
— the insert's source is the extract's result, the extract's source is the
insert's destination, and the mixed offsets, sizes and strides coincide — yet
the fold fires the earlier static identity branch and returns the insert's
own source (value 1, the extract's result), not the destination X (value 0). -/
theorem insert_after_extract_identity_corner :
    identExtract.source = identInsert.dest ∧
    sameOffsetsSizesAndStrides identExtract.offsets identExtract.sizes
      identExtract.strides identInsert.offsets identInsert.sizes
      identInsert.strides = true ∧
    hasUnitStride identExtract = true ∧
    insertSliceFold identInsert (some identExtract) none =
      some (InsertFoldOutcome.foldedTo 1) ∧
    insertSliceFold identInsert (some identExtract) none ≠
      some (InsertFoldOutcome.foldedTo identInsert.dest) := by
  refine ⟨by decide, by decide, by decide, by decide, by decide⟩

/-- C7, amended. Inserting the result of an extract_slice back into the
extract's source at identical mixed offsets, sizes and strides folds to that
source, provided the two earlier fold branches do not fire: the insert is not
a static identity insert, and its destination is not produced by an
insert_slice at the same coordinates with the same source type (in those
excluded cases the fold returns the insert's own source, respectively the
op's own result after the in-place destination update). -/
theorem insert_after_extract_slice_folds_to_destination
    (op : InsertSliceData) (e : ExtractSliceData)
    (destDef : Option InsertSliceData)
    (hsrc : e.source = op.dest)
    (hsame : sameOffsetsSizesAndStrides e.offsets e.sizes e.strides
      op.offsets op.sizes op.strides = true)
    (hIdent : ¬(hasStaticShape op.sourceType = true ∧
        hasStaticShape op.resultType = true ∧
        op.sourceType = op.resultType ∧
        foldIdentityOffsetSizeAndStride op.offsets op.sizes op.strides
          op.resultType.shape = true))
    (hPrev : foldInsertAfterInsertSlice op destDef = none) :
    insertSliceFold op (some e) destDef =
      some (InsertFoldOutcome.foldedTo op.dest) := by
  unfold insertSliceFold
  rw [if_neg hIdent, hPrev]
  simp [foldInsertAfterExtractSlice, hsrc, hsame]

/-- Witness for `insert_after_extract_slice_folds_to_destination`: a proper
sub-slice round trip folds to the destination value 0. -/
theorem insert_after_extract_slice_folds_to_destination_witness :
    insertSliceFold subInsert (some subExtract) none =
      some (InsertFoldOutcome.foldedTo subInsert.dest) :=
  insert_after_extract_slice_folds_to_destination subInsert subExtract none
    (by decide) (by decide) (by decide) (by decide)

/-- C10. When the fold of an insert_slice succeeds through the
insert-after-insert branch, the destination it had must have been produced by
an insert_slice at identical coordinates with the same source type, and the
only change is the in-place destination update to that earlier insert's
destination: source, source type, offsets, sizes, strides and result type are
untouched, and the op itself is retained (the outcome is the in-place form,
whose value is the op's own result). -/
theorem insert_after_insert_updates_only_destination
    (op newOp : InsertSliceData) (sourceDef : Option ExtractSliceData)
    (destDef : Option InsertSliceData)
    (h : insertSliceFold op sourceDef destDef =
      some (InsertFoldOutcome.inPlace newOp)) :
    (∃ prev, destDef = some prev ∧ newOp.dest = prev.dest ∧
      prev.sourceType = op.sourceType ∧
      sameOffsetsSizesAndStrides prev.offsets prev.sizes prev.strides
        op.offsets op.sizes op.strides = true) ∧
    newOp.source = op.source ∧ newOp.sourceType = op.sourceType ∧
    newOp.offsets = op.offsets ∧ newOp.sizes = op.sizes ∧
    newOp.strides = op.strides ∧ newOp.resultType = op.resultType := by
  unfold insertSliceFold at h
  split at h
  · simp at h
  · cases hfold : foldInsertAfterInsertSlice op destDef with
    | none =>
        rw [hfold] at h
        cases hext : foldInsertAfterExtractSlice op sourceDef with
        | none => rw [hext] at h; simp at h
        | some v => rw [hext] at h; simp at h
    | some m =>
        rw [hfold] at h
        simp only [Option.some.injEq, InsertFoldOutcome.inPlace.injEq] at h
        subst h
        cases destDef with
        | none => simp [foldInsertAfterInsertSlice] at hfold
        | some prev =>
            by_cases hc : prev.sourceType = op.sourceType ∧
                sameOffsetsSizesAndStrides prev.offsets prev.sizes prev.strides
                  op.offsets op.sizes op.strides = true
            · simp only [foldInsertAfterInsertSlice, if_pos hc,
                Option.some.injEq] at hfold
              subst hfold
              exact ⟨⟨prev, rfl, rfl, hc.1, hc.2⟩, rfl, rfl, rfl, rfl, rfl, rfl⟩
            · simp only [foldInsertAfterInsertSlice, if_neg hc] at hfold
              exact absurd hfold (by simp)

/-- Witness for `insert_after_insert_updates_only_destination`: the mutated
insert keeps its source operand. -/
theorem insert_after_insert_updates_only_destination_witness :
    ({ subInsert with dest := 9 } : InsertSliceData).source = subInsert.source :=
  (insert_after_insert_updates_only_destination subInsert
    { subInsert with dest := 9 } none (some prevSubInsert) (by decide)).2.1

/-- A successful `Option`-monadic map means every element maps successfully. -/
theorem mapM_option_isSome {α β : Type} (g : α → Option β) :
    ∀ (l : List α) (ys : List β), l.mapM g = some ys → ∀ x ∈ l, (g x).isSome := by
  intro l
  induction l with
  | nil =>
      intro ys h x hx
      simp at hx
  | cons a as ih =>
      intro ys h x hx
      rw [List.mapM_cons] at h
      cases hga : g a with
      | none => rw [hga] at h; simp at h
      | some y =>
          rw [hga] at h
          cases hmas : as.mapM g with
          | none => rw [hmas] at h; simp at h
          | some ys2 =>
              rcases List.mem_cons.mp hx with rfl | hx2
              · simp [hga]
              · exact ih ys2 hmas x hx2


/-- Conditions necessarily established by a successful orthogonal-pad
fusion: matching constant padding values, zero low-padding, unit strides,
disjoint padded dimensions, and, on every dimension padded by the outer pad,
an inner slice size equal to the inner slice's full source extent. -/
theorem foldOrthogonalPaddings_some_necessary
    (padOp outerPadOp : PadData) (innerSliceOp outerSliceOp : ExtractSliceData)
    (f : FusedPads)
    (h : foldOrthogonalPaddings padOp innerSliceOp outerPadOp outerSliceOp =
      some f) :
    (∃ v, padOp.padValue = some v ∧ outerPadOp.padValue = some v) ∧
    hasZeroLowPad padOp = true ∧ hasZeroLowPad outerPadOp = true ∧
    hasUnitStride innerSliceOp = true ∧ hasUnitStride outerSliceOp = true ∧
    anyCommon (getPaddedDims padOp) (getPaddedDims outerPadOp) = false ∧
    (∀ i, i < padOp.sourceType.shape.length →
      (getPaddedDims outerPadOp).getD i false = true →
      getConstantIntValue (innerSliceOp.sizes.getD i (OFR.attr 0)) =
        some (innerSliceOp.sourceType.shape.getD i 0)) := by
  unfold foldOrthogonalPaddings at h
  by_cases h0 : outerPadOp.nofold = true
  · rw [if_pos h0] at h
    exact absurd h (by simp)
  rw [if_neg h0] at h
  by_cases h1 : outerSliceOp.sourceType.shape.length ≠ padOp.sourceType.shape.length
  · rw [if_pos h1] at h
    exact absurd h (by simp)
  rw [if_neg h1] at h
  by_cases h2 : (!(hasUnitStride innerSliceOp && hasUnitStride outerSliceOp)) = true
  · rw [if_pos h2] at h
    exact absurd h (by simp)
  rw [if_neg h2] at h
  by_cases h3 : (!(hasZeroLowPad padOp && hasZeroLowPad outerPadOp)) = true
  · rw [if_pos h3] at h
    exact absurd h (by simp)
  rw [if_neg h3] at h
  by_cases h4 : (padOp.padValue.isNone || outerPadOp.padValue.isNone ||
      decide (padOp.padValue ≠ outerPadOp.padValue)) = true
  · rw [if_pos h4] at h
    exact absurd h (by simp)
  rw [if_neg h4] at h
  by_cases h5 : anyCommon (getPaddedDims padOp) (getPaddedDims outerPadOp) = true
  · rw [if_pos h5] at h
    exact absurd h (by simp)
  rw [if_neg h5] at h
  rcases Option.bind_eq_some.mp h with ⟨newOffsets, hoffs, h6⟩
  rcases Option.map_eq_some'.mp h6 with ⟨newSizes, hsizes, _⟩
  have h2' : hasUnitStride innerSliceOp = true ∧ hasUnitStride outerSliceOp = true := by
    simpa using h2
  have h3' : hasZeroLowPad padOp = true ∧ hasZeroLowPad outerPadOp = true := by
    simpa using h3
  simp only [Bool.or_eq_true, not_or, Bool.not_eq_true, Option.isNone_eq_false_iff,
    decide_eq_true_iff, not_not] at h4
  obtain ⟨⟨hin, hon⟩, hveq⟩ := h4
  rcases Option.isSome_iff_exists.mp hin with ⟨v, hv⟩
  refine ⟨⟨v, hv, by rw [← hveq]; exact hv⟩, h3'.1, h3'.2, h2'.1, h2'.2,
    by simpa using h5, ?_⟩
  intro i hi houter
  have hsome := mapM_option_isSome _ _ _ hsizes i (List.mem_range.mpr hi)
  simp only [houter, Bool.not_true, Bool.false_eq_true, if_false] at hsome
  by_cases hcond : getConstantIntValue (innerSliceOp.sizes.getD i (OFR.attr 0)) =
      some (innerSliceOp.sourceType.shape.getD i 0)
  · exact hcond
  · rw [if_neg hcond] at hsome
    simp at hsome

/-- Outer extract_slice of the orthogonal-pad example: rows 16..63 of a
64x64 tensor (value 10). -/
def orthoOuterSlice : ExtractSliceData :=
  { source := 10, sourceType := ⟨0, [64, 64]⟩, resultType := ⟨0, [48, 64]⟩
    offsets := [OFR.attr 16, OFR.attr 0], sizes := [OFR.attr 48, OFR.attr 64]
    strides := [OFR.attr 1, OFR.attr 1] }

/-- Outer pad of the orthogonal-pad example: pads dimension 0 high by 8. -/
def orthoOuterPad : PadData :=
  { source := 11, sourceType := ⟨0, [48, 64]⟩, resultType := ⟨0, [56, 64]⟩
    low := [OFR.attr 0, OFR.attr 0], high := [OFR.attr 8, OFR.attr 0]
    nofold := false, padValue := some 7 }

/-- Inner extract_slice of the orthogonal-pad example: columns 4..63 of the
outer pad's 56x64 result (value 12). -/
def orthoInnerSlice : ExtractSliceData :=
  { source := 12, sourceType := ⟨0, [56, 64]⟩, resultType := ⟨0, [56, 60]⟩
    offsets := [OFR.attr 0, OFR.attr 4], sizes := [OFR.attr 56, OFR.attr 60]
    strides := [OFR.attr 1, OFR.attr 1] }

/-- Inner pad of the orthogonal-pad example: pads dimension 1 high by 4,
disjoint from the outer pad's dimension 0. -/
def orthoInnerPad : PadData :=
  { source := 13, sourceType := ⟨0, [56, 60]⟩, resultType := ⟨0, [56, 64]⟩
    low := [OFR.attr 0, OFR.attr 0], high := [OFR.attr 0, OFR.attr 4]
    nofold := false, padValue := some 7 }

/-- A variant inner pad that pads dimension 0, the same dimension the outer
pad pads. -/
def orthoInnerPadShared : PadData :=
  { source := 13, sourceType := ⟨0, [56, 60]⟩, resultType := ⟨0, [60, 60]⟩
    low := [OFR.attr 0, OFR.attr 0], high := [OFR.attr 4, OFR.attr 0]
    nofold := false, padValue := some 7 }

/-- C8. A successful orthogonal-pad fusion requires matching constant pad
values, zero low-padding, unit-stride slices, disjoint padded dimensions and,
on every dimension padded by the outer pad, an inner slice size equal to the
full inner source extent; two pads sharing a padded dimension never fuse; the
concrete disjoint example fuses into one slice plus one pad with the combined
offsets, sizes and high paddings, and the shared-dimension variant does not
fuse. -/
theorem fold_orthogonal_paddings_fusion_conditions :
    (∀ (padOp outerPadOp : PadData)
        (innerSliceOp outerSliceOp : ExtractSliceData) (f : FusedPads),
      foldOrthogonalPaddings padOp innerSliceOp outerPadOp outerSliceOp = some f →
        (∃ v, padOp.padValue = some v ∧ outerPadOp.padValue = some v) ∧
        hasZeroLowPad padOp = true ∧ hasZeroLowPad outerPadOp = true ∧
        hasUnitStride innerSliceOp = true ∧ hasUnitStride outerSliceOp = true ∧
        anyCommon (getPaddedDims padOp) (getPaddedDims outerPadOp) = false ∧
        (∀ i, i < padOp.sourceType.shape.length →
          (getPaddedDims outerPadOp).getD i false = true →
          getConstantIntValue (innerSliceOp.sizes.getD i (OFR.attr 0)) =
            some (innerSliceOp.sourceType.shape.getD i 0))) ∧
    (∀ (padOp outerPadOp : PadData)
        (innerSliceOp outerSliceOp : ExtractSliceData),
      anyCommon (getPaddedDims padOp) (getPaddedDims outerPadOp) = true →
      foldOrthogonalPaddings padOp innerSliceOp outerPadOp outerSliceOp = none) ∧
    foldOrthogonalPaddings orthoInnerPad orthoInnerSlice orthoOuterPad
      orthoOuterSlice =
      some { newSliceSource := 10
             newOffsets := [OFR.attr 16, OFR.attr 4]
             newSizes := [OFR.attr 48, OFR.attr 60]
             newStrides := [OFR.attr 1, OFR.attr 1]
             newLow := [OFR.attr 0, OFR.attr 0]
             newHigh := [OFR.attr 8, OFR.attr 4]
             newPadResultType := ⟨0, [56, 64]⟩
             newNofold := false } ∧
    foldOrthogonalPaddings orthoInnerPadShared orthoInnerSlice orthoOuterPad
      orthoOuterSlice = none := by
  refine ⟨foldOrthogonalPaddings_some_necessary, ?_, by decide, by decide⟩
  intro padOp outerPadOp innerSliceOp outerSliceOp hcommon
  cases hres : foldOrthogonalPaddings padOp innerSliceOp outerPadOp outerSliceOp with
  | none => rfl
  | some f =>
      have hc := (foldOrthogonalPaddings_some_necessary padOp outerPadOp
        innerSliceOp outerSliceOp f hres).2.2.2.2.2.1
      rw [hcommon] at hc
      exact absurd hc (by simp)

/-- Witness for `fold_orthogonal_paddings_fusion_conditions`: two pads that
both pad dimension 0 do not fuse. -/
theorem fold_orthogonal_paddings_fusion_conditions_witness :
    foldOrthogonalPaddings orthoInnerPadShared orthoInnerSlice orthoOuterPad
      orthoOuterSlice = none :=
  fold_orthogonal_paddings_fusion_conditions.2.1 orthoInnerPadShared
    orthoOuterPad orthoInnerSlice orthoOuterSlice (by decide)

/-- Witness for `chained_cast_collapses_iff_three_way_join_matches`: the
concrete chain ?x? → 8x? → 8x16 collapses. -/
theorem chained_cast_collapses_iff_three_way_join_matches_witness :
    chainedCastCollapses (TensorTy.ranked ⟨0, [kDynamic, kDynamic]⟩)
      (TensorTy.ranked ⟨0, [8, kDynamic]⟩)
      (TensorTy.ranked ⟨0, [8, 16]⟩) = true :=
  chained_cast_collapses_iff_three_way_join_matches.2.1

/-- Witness for `infer_canonical_rank_reduced_drops_leading_unit_dims`: the
general statement instantiated at the 1x6x1 example. -/
theorem infer_canonical_rank_reduced_drops_leading_unit_dims_witness :
    (inferCanonicalRankReducedResultType 2 ⟨0, [9, 9, 9]⟩
        [0, 0, 0] [1, 6, 1] [1, 1, 1]).shape =
      dropLeadingUnitDims 1 [1, 6, 1] :=
  infer_canonical_rank_reduced_drops_leading_unit_dims.1 2 ⟨0, [9, 9, 9]⟩
    [0, 0, 0] [1, 6, 1] [1, 1, 1]

/-- Witness for `gather_verify_accepts_exactly_the_two_inferred_forms`: the
dims list [0,2] passes the dims check against rank 3. -/
theorem gather_verify_accepts_exactly_the_two_inferred_forms_witness :
    verifyGatherOrScatterDims [0, 2] 3 = true :=
  (gather_verify_accepts_exactly_the_two_inferred_forms.2 5 4 4 6 0 0).2.2
